import Mathlib

/-!
Verification of OmegaDLG (src/main.py): shallow embedding of the
fetch-and-assemble pipeline and proofs about it.

Numeric conventions: Python float arithmetic in the layout rule is modelled
exactly over ℚ (the formulas involve only +, *, /); machine integers do not
overflow in this program, so sizes and indices are Nat.
-/

/-! ## PDF layout (src/main.py, `layout_fun_fixed_width`)

`ndpi` is the DPI pair handed over by img2pdf.  The Python code guards both
against a missing tuple (`ndpi` falsy), a missing entry (`ndpi[0]` falsy,
which also catches a 0 value) and a non-positive entry, so the embedding
takes an `Option (Option ℚ × Option ℚ)`.
-/

/-- `ndpi[0] if ndpi and ndpi[0] and ndpi[0] > 0 else 96` -/
def effDpiX : Option (Option ℚ × Option ℚ) → ℚ
  | none => 96
  | some (none, _) => 96
  | some (some dx, _) => if dx ≠ 0 then (if dx > 0 then dx else 96) else 96

/-- `ndpi[1] if ndpi and ndpi[1] and ndpi[1] > 0 else 96` -/
def effDpiY : Option (Option ℚ × Option ℚ) → ℚ
  | none => 96
  | some (_, none) => 96
  | some (_, some dy) => if dy ≠ 0 then (if dy > 0 then dy else 96) else 96

/-- Embedding of `layout_fun_fixed_width(imgwidthpx, imgheightpx, ndpi)`:
returns `(page_width_pt, scaled_h_pt, page_width_pt, scaled_h_pt)`.
The Python truthiness test `if img_w_pt` is the `img_w_pt ≠ 0` branch. -/
def layout_fun_fixed_width (imgwidthpx imgheightpx : ℚ)
    (ndpi : Option (Option ℚ × Option ℚ)) : ℚ × ℚ × ℚ × ℚ :=
  let page_width_pt : ℚ := 720
  let dpi_x := effDpiX ndpi
  let dpi_y := effDpiY ndpi
  let img_w_in := imgwidthpx / dpi_x
  let img_h_in := imgheightpx / dpi_y
  let img_w_pt := img_w_in * 72
  let img_h_pt := img_h_in * 72
  let scale := if img_w_pt ≠ 0 then page_width_pt / img_w_pt else 1
  let scaled_h_pt := img_h_pt * scale
  (page_width_pt, scaled_h_pt, page_width_pt, scaled_h_pt)

/-! ## Chapter enumeration (src/main.py, `generate_chapter_urls` and the
labelling loop of `run_bulk`) -/

/-- Python `str.rstrip("/")`: drop every trailing slash. -/
def rstripSlash (s : String) : String :=
  String.mk ((s.data.reverse.dropWhile (fun c => c = '/')).reverse)

/-- Embedding of `generate_chapter_urls(base_url, total_chapters)`:
`[f"{base}/chapter-{i}" for i in range(1, total_chapters + 1)]` with
`base = base_url.rstrip("/")`. -/
def generate_chapter_urls (base_url : String) (total_chapters : Nat) : List String :=
  (List.range' 1 total_chapters).map
    (fun i => rstripSlash base_url ++ "/chapter-" ++ toString i)

/-- The (label, address) pairs the bulk orchestrator builds:
`for idx, chapter_url in enumerate(chapter_urls, 1): label = str(idx)`. -/
def chapterEntries (base_url : String) (total_chapters : Nat) : List (String × String) :=
  (List.enumFrom 1 (generate_chapter_urls base_url total_chapters)).map
    (fun p => (toString p.1, p.2))

/-! ## URL parsing

The program inspects URLs through `urllib.parse.urlparse`, of which it uses
the `scheme` and `path` components.  The embedding below follows CPython's
`urlsplit`/`urlparse` (CPython 3.11): left-strip C0-control-or-space
characters, remove tab/CR/LF, split off a well-formed scheme (lower-cased),
a `//netloc`, the fragment (first `#`), the query (first `?`), and — for
schemes that use them — the `;parameters` of the last path segment.
`urlparse` below gives the components of a call that completes;
CPython's `ValueError` paths (the bracketed-host checks and
`_checknetloc`) are embedded separately as `urlsplitError` further down,
and `mkJobsE` runs the job loop under the full raising semantics. -/

def schemeChar (c : Char) : Bool :=
  c.isAlpha || c.isDigit || c = '+' || c = '-' || c = '.'

def isC0OrSpace (c : Char) : Bool := decide (c ≤ ' ')

/-- CPython only *lstrips* the URL ("some applications rely on preserving
trailing space"). -/
def lstripC0 (l : List Char) : List Char := l.dropWhile isC0OrSpace

def removeUnsafeBytes (l : List Char) : List Char :=
  l.filter (fun c => !(c = '\t' || c = '\r' || c = '\n'))

/-- Split `scheme:` off the front: requires a colon at index ≥ 1, a leading
ASCII letter and only scheme characters before the colon. -/
def splitScheme (l : List Char) : List Char × List Char :=
  let pre := l.takeWhile (fun c => c != ':')
  if pre.length < l.length then
    match pre with
    | [] => ([], l)
    | c :: _ =>
      if c.isAlpha && pre.all schemeChar then
        (pre.map Char.toLower, l.drop (pre.length + 1))
      else ([], l)
  else ([], l)

/-- Split `//netloc` off the front: the netloc ends at the first `/`, `?`
or `#`. -/
def splitNetloc : List Char → List Char × List Char
  | '/' :: '/' :: rest =>
    let nl := rest.takeWhile (fun c => !(c = '/' || c = '?' || c = '#'))
    (nl, rest.drop nl.length)
  | l => ([], l)

/-- `l.split(sep, 1)`: the part before the first `sep` and the part after it
(the whole list and `[]` when `sep` does not occur). -/
def splitAtFirst (sep : Char) (l : List Char) : List Char × List Char :=
  let pre := l.takeWhile (fun c => c != sep)
  (pre, l.drop (pre.length + 1))

/-- CPython's `uses_params` scheme list. -/
def usesParams : List (List Char) :=
  ["".data, "ftp".data, "hdl".data, "prospero".data, "http".data, "imap".data,
   "https".data, "shttp".data, "rtsp".data, "rtsps".data, "rtspu".data, "sip".data,
   "sips".data, "mms".data, "sftp".data, "tel".data]

/-- CPython `_splitparams`: cut the path at the first `;` that lies in the
last path segment (or anywhere when the path has no `/`). -/
def splitParams (path : List Char) : List Char × List Char :=
  if path.contains '/' then
    let lastComp := (path.reverse.takeWhile (fun c => c != '/')).reverse
    if lastComp.contains ';' then
      let keep := path.length - lastComp.length +
        (lastComp.takeWhile (fun c => c != ';')).length
      (path.take keep, path.drop (keep + 1))
    else (path, [])
  else
    let pre := path.takeWhile (fun c => c != ';')
    (pre, path.drop (pre.length + 1))

structure ParseResult where
  scheme : List Char
  netloc : List Char
  path : List Char
  params : List Char
  query : List Char
  fragment : List Char
deriving DecidableEq

/-- Embedding of `urllib.parse.urlparse` (the components the program reads). -/
def urlparse (u : List Char) : ParseResult :=
  let u1 := removeUnsafeBytes (lstripC0 u)
  let s := splitScheme u1
  let n := splitNetloc s.2
  let f := splitAtFirst '#' n.2
  let q := splitAtFirst '?' f.1
  if usesParams.contains s.1 && q.1.contains ';' then
    let p := splitParams q.1
    ⟨s.1, n.1, p.1, p.2, q.2, f.2⟩
  else ⟨s.1, n.1, q.1, [], q.2, f.2⟩

/-! ## Image-URL filtering and download jobs (src/main.py,
`_is_valid_image_url` and the job loop of `download_images_threaded`) -/

/-- Embedding of `_is_valid_image_url(u)`: absolute http/https and the path
must not end (case-insensitively) in `.svg` or `.ico`. -/
def _is_valid_image_url (u : List Char) : Bool :=
  let parsed := urlparse u
  let scheme := parsed.scheme.map Char.toLower
  let pathLower := parsed.path.map Char.toLower
  (scheme == "http".data || scheme == "https".data) &&
    !(List.isSuffixOf ".svg".data pathLower || List.isSuffixOf ".ico".data pathLower)

/-- `os.path.splitext(p)[1]` (posixpath): the suffix from the last `.` of the
final path component, empty when every character before that dot in the
component is itself a dot (so `.bashrc` has no extension). -/
def splitextExt (p : List Char) : List Char :=
  let baseRev := p.reverse.takeWhile (fun c => c != '/')
  let extRev := baseRev.takeWhile (fun c => c != '.')
  if extRev.length = baseRev.length then []
  else
    let stemRev := baseRev.drop (extRev.length + 1)
    if stemRev.any (fun c => c != '.') then '.' :: extRev.reverse else []

/-- The destination extension of one download: the source path's extension
lower-cased when it is one of the four supported ones, else `.jpg`. -/
def jobExt (u : List Char) : List Char :=
  let e := (splitextExt (urlparse u).path).map Char.toLower
  if e = ".jpg".data ∨ e = ".jpeg".data ∨ e = ".png".data ∨ e = ".webp".data then e
  else ".jpg".data

def digChar : Nat → Char
  | 0 => '0'
  | 1 => '1'
  | 2 => '2'
  | 3 => '3'
  | 4 => '4'
  | 5 => '5'
  | 6 => '6'
  | 7 => '7'
  | 8 => '8'
  | 9 => '9'
  | _ => '?'

/-- Python `f"{n:03d}"`: zero-pad to three digits (numbers ≥ 1000 print in
full). -/
def fmt03 (n : Nat) : List Char :=
  if n < 1000 then [digChar (n / 100), digChar (n / 10 % 10), digChar (n % 10)]
  else Nat.toDigits 10 n

structure ImageJob where
  idx : Nat
  url : List Char
  ext : List Char
deriving DecidableEq

/-- `f"{idx:03d}{ext}"` — the destination filename (inside `out_dir`). -/
def ImageJob.filename (j : ImageJob) : List Char := fmt03 j.idx ++ j.ext

/-- The job loop of `download_images_threaded`: `idx` counts only the
surviving addresses, starting at 1. -/
def mkJobsGo : List (List Char) → Nat → List ImageJob
  | [], _ => []
  | u :: us, idx =>
    if _is_valid_image_url u then
      { idx := idx + 1, url := u, ext := jobExt u } :: mkJobsGo us (idx + 1)
    else mkJobsGo us idx

def mkJobs (urls : List (List Char)) : List ImageJob := mkJobsGo urls 0

/-! ## The `ValueError` paths of `urlparse`

CPython's `urlsplit` raises on netlocs with bracket problems and on
non-ASCII netlocs that the NFKC check rejects; such an exception escapes
`_is_valid_image_url` and crashes the job loop of
`download_images_threaded` uncaught.  The validators below follow CPython
3.11 (`urllib.parse._check_bracketed_host`, `_checknetloc`, and
`ipaddress`'s string parsers) literally. -/

/-- Python `str.split(sep)`: always at least one part, empty parts kept. -/
def splitOnChar (sep : Char) : List Char → List (List Char)
  | [] => [[]]
  | c :: cs =>
    if c = sep then [] :: splitOnChar sep cs
    else
      match splitOnChar sep cs with
      | [] => [[c]]
      | p :: ps => (c :: p) :: ps

def isHexDigitAscii (c : Char) : Bool :=
  decide (('0' ≤ c ∧ c ≤ '9') ∨ ('a' ≤ c ∧ c ≤ 'f') ∨ ('A' ≤ c ∧ c ≤ 'F'))

def digitsToNat (l : List Char) : Nat :=
  l.foldl (fun a c => a * 10 + (c.toNat - 48)) 0

/-- `%x` of a 16-bit value: lowercase hex digits, no padding. -/
def hexChars (n : Nat) : List Char := Nat.toDigits 16 n

/-- `ipaddress.IPv4Address._parse_octet`: nonempty, ASCII decimal digits,
at most 3 characters, no leading zero unless the octet is `"0"`, ≤ 255. -/
def parseOctetOk : List Char → Bool
  | [] => false
  | c :: cs =>
    (c :: cs).all Char.isDigit &&
    decide ((c :: cs).length ≤ 3) &&
    !(decide (c = '0') && !cs.isEmpty) &&
    decide (digitsToNat (c :: cs) ≤ 255)

/-- `IPv4Address(s)` on a string: no `/`, nonempty, exactly four valid
octets. -/
def isValidIPv4 (s : List Char) : Bool :=
  !s.contains '/' && !s.isEmpty &&
  (let octets := splitOnChar '.' s
   decide (octets.length = 4) && octets.all parseOctetOk)

/-- The 32-bit value of a (valid) dotted-quad string. -/
def ipv4Value (s : List Char) : Nat :=
  ((splitOnChar '.' s).map digitsToNat).foldl (fun a o => a * 256 + o) 0

/-- `ipaddress._BaseV6._parse_hextet`: hex digits only, at most 4 of them
(`int('', 16)` makes the empty hextet an error too). -/
def parseHextetOk (s : List Char) : Bool :=
  !s.isEmpty && s.all isHexDigitAscii && decide (s.length ≤ 4)

/-- The `::`/endpoint analysis of `_BaseV6._ip_int_from_string` on the
already-split parts (caller guarantees ≥ 3 parts): at most 9 parts, at most
one empty interior part (the `::`), empty endpoints only as part of that
`::`, at least one part skipped by `::` (or exactly 8 parts without one),
and every copied part a valid hextet. -/
def ipv6PartsOk (parts : List (List Char)) : Bool :=
  if decide (9 < parts.length) then false
  else
    let n := parts.length
    let interior := (parts.drop 1).dropLast
    let emptyCount := interior.countP (fun p => p.isEmpty)
    if decide (2 ≤ emptyCount) then false
    else if emptyCount = 1 then
      let skipIdx := interior.findIdx (fun p => p.isEmpty) + 1
      let headEmpty := (parts.headD []).isEmpty
      let lastEmpty := (parts.getLastD []).isEmpty
      let partsHi := if headEmpty then skipIdx - 1 else skipIdx
      let partsLo0 := n - skipIdx - 1
      let partsLo := if lastEmpty then partsLo0 - 1 else partsLo0
      if headEmpty && decide (partsHi ≠ 0) then false
      else if lastEmpty && decide (partsLo ≠ 0) then false
      else if decide (7 < partsHi + partsLo) then false
      else
        ((parts.take partsHi).all parseHextetOk) &&
        ((parts.drop (n - partsLo)).all parseHextetOk)
    else
      decide (n = 8) && !(parts.headD []).isEmpty && !(parts.getLastD []).isEmpty &&
      parts.all parseHextetOk

/-- `_BaseV6._ip_int_from_string` validity: nonempty, ≥ 3 colon-separated
parts, an IPv4-style last part converted to its two hextets, then the
parts analysis. -/
def ipv6AddrOk (s : List Char) : Bool :=
  if s.isEmpty then false
  else
    let parts := splitOnChar ':' s
    if decide (parts.length < 3) then false
    else
      match parts.getLast? with
      | none => false
      | some last =>
        if last.contains '.' then
          if isValidIPv4 last then
            ipv6PartsOk (parts.dropLast ++
              [hexChars (ipv4Value last / 65536 % 65536), hexChars (ipv4Value last % 65536)])
          else false
        else ipv6PartsOk parts

/-- `IPv6Address(s)`: no `/`, an optional `%scope` (nonempty, no further
`%`), then the address body. -/
def isValidIPv6 (s : List Char) : Bool :=
  !s.contains '/' &&
  (let addr := s.takeWhile (fun c => c != '%')
   if addr.length = s.length then ipv6AddrOk addr
   else
     let scope := s.drop (addr.length + 1)
     !scope.isEmpty && !scope.contains '%' && ipv6AddrOk addr)

/-- `_check_bracketed_host(hostname)`: a host starting with `v` must match
`\Av[a-fA-F0-9]+\..+\Z` (the `.` after the maximal hex run, a nonempty
newline-free tail — newlines were removed upstream anyway); any other host
goes through `ipaddress.ip_address`, where a valid IPv4 address is itself
an error and only a valid IPv6 address is accepted. -/
def bracketedHostError (hostname : List Char) : Option (List Char) :=
  match hostname with
  | 'v' :: rest =>
    let hex := rest.takeWhile isHexDigitAscii
    if !hex.isEmpty &&
       (match rest.drop hex.length with
        | '.' :: tail => !tail.isEmpty && tail.all (fun c => c != '\n')
        | _ => false) then none
    else some "IPvFuture address is invalid".data
  | _ =>
    if isValidIPv4 hostname then some "An IPv4 address cannot be in brackets".data
    else if isValidIPv6 hostname then none
    else some "does not appear to be an IPv4 or IPv6 address".data

/-- The 19 characters (Unicode 14.0, as shipped with CPython 3.11) whose
NFKC normalization contains one of `/?#@:`.  `_checknetloc` raises exactly
when the reduced netloc's NFKC normalization changed and contains one of
those five ASCII characters; none of them takes part in any canonical
composition, so they appear in the normalization iff some single character
of the reduced netloc decomposes to them — i.e. iff it is in this set. -/
def nfkcUnsafeChar (c : Char) : Bool :=
  decide (c = '⁇' ∨ c = '⁈' ∨ c = '⁉' ∨ c = '℀' ∨ c = '℁' ∨
    c = '℅' ∨ c = '℆' ∨ c = '⩴' ∨ c = '︓' ∨ c = '︖' ∨
    c = '﹕' ∨ c = '﹖' ∨ c = '﹟' ∨ c = '﹫' ∨ c = '＃' ∨
    c = '／' ∨ c = '：' ∨ c = '？' ∨ c = '＠')

def isAsciiChar (c : Char) : Bool := decide (c.val < 128)

/-- `_checknetloc(netloc)`: an empty or all-ASCII netloc passes; otherwise
the netloc minus `@ : # ?` must contain no NFKC-unsafe character. -/
def checknetlocOk (netloc : List Char) : Bool :=
  if netloc.isEmpty || netloc.all isAsciiChar then true
  else
    let n := netloc.filter (fun c => !(c = '@' || c = ':' || c = '#' || c = '?'))
    !(n.any nfkcUnsafeChar)

/-- The `ValueError` paths of `urlsplit` (CPython 3.11), on top of the same
scheme/netloc front-end as `urlparse`: an unmatched `[`/`]` in the netloc
is "Invalid IPv6 URL"; a matched pair must enclose a valid bracketed host
(`netloc.partition('[')[2].partition(']')[0]`); finally `_checknetloc`.
`none` means the parse completes, with the components given by `urlparse`.
(The raise message of `_checknetloc` embeds the offending netloc; the
embedding keeps the fixed part of the message.) -/
def urlsplitError (u : List Char) : Option (List Char) :=
  let u1 := removeUnsafeBytes (lstripC0 u)
  let s := splitScheme u1
  let netloc := (splitNetloc s.2).1
  if (netloc.contains '[' && !netloc.contains ']') ||
     (netloc.contains ']' && !netloc.contains '[') then
    some "Invalid IPv6 URL".data
  else if netloc.contains '[' && netloc.contains ']' then
    let afterBracket := netloc.drop ((netloc.takeWhile (fun c => c != '[')).length + 1)
    let bracketed := afterBracket.takeWhile (fun c => c != ']')
    match bracketedHostError bracketed with
    | some e => some e
    | none =>
      if checknetlocOk netloc then none
      else some "netloc contains invalid characters under NFKC normalization".data
  else
    if checknetlocOk netloc then none
    else some "netloc contains invalid characters under NFKC normalization".data

/-- The job loop of `download_images_threaded` under the full raising
semantics: `_is_valid_image_url(u)` calls `urlparse(u)`, so the first
address whose parse raises aborts the loop with that `ValueError`
(uncaught in the program); otherwise the loop builds `mkJobs`. -/
def mkJobsGoE : List (List Char) → Nat → Except (List Char) (List ImageJob)
  | [], _ => .ok []
  | u :: us, idx =>
    match urlsplitError u with
    | some e => .error e
    | none =>
      if _is_valid_image_url u then
        match mkJobsGoE us (idx + 1) with
        | .ok js => .ok ({ idx := idx + 1, url := u, ext := jobExt u } :: js)
        | .error e => .error e
      else mkJobsGoE us idx

def mkJobsE (urls : List (List Char)) : Except (List Char) (List ImageJob) :=
  mkJobsGoE urls 0

/-! ## Downloading with retries (src/main.py, `get_with_retries` and the
`_wrap_download` closure of `download_images_threaded`)

Network behaviour is abstracted by an oracle giving the outcome of each
network call: a request-level failure (timeout / connection error / non-2xx,
i.e. a `requests.RequestException` raised inside `get_with_retries`), a
failure while streaming the body to disk after some bytes were written
(raised from `resp.iter_content` after `open(dest, "wb")` truncated the
file), or success.  `sleep` calls are recorded as trace events with the
requested duration in seconds (0.6 = 3/5 exactly over ℚ). -/

inductive AttemptResult where
  | netFail (msg : List Char)
  | midFail (msg : List Char) (bytesWritten : Nat)
  | success (bytes : Nat)

inductive Ev where
  | attempt (k : Nat)
  | sleep (secs : ℚ)
deriving DecidableEq

/-- Loop of `get_with_retries(session, url, retries=…)`: attempt counter `k`,
remaining attempts `fuel`.  On each failure the adapter sleeps
`0.6 * attempt` — including after the final attempt, before re-raising. -/
def getWithRetriesGo {α : Type} (oracle : Nat → Except (List Char) α) :
    Nat → Nat → Option (List Char) → (Except (Option (List Char)) α) × List Ev
  | _, 0, lastErr => (.error lastErr, [])
  | k, fuel + 1, _ =>
    match oracle k with
    | .ok a => (.ok a, [.attempt k])
    | .error e =>
      let r := getWithRetriesGo oracle (k + 1) fuel (some e)
      (r.1, .attempt k :: .sleep ((3 : ℚ) / 5 * k) :: r.2)

/-- Embedding of `get_with_retries`; `.error none` is Python's
`raise last_err` with `last_err = None` (only reachable with `retries=0`). -/
def get_with_retries {α : Type} (oracle : Nat → Except (List Char) α)
    (retries : Nat) : (Except (Option (List Char)) α) × List Ev :=
  getWithRetriesGo oracle 1 retries none

inductive FileData where
  | truncated (bytes : Nat)
  | complete (bytes : Nat)
deriving DecidableEq

structure JobRun where
  ok : Bool
  written : Nat
  err : Option (List Char)
  file : Option FileData
  trace : List Ev
deriving DecidableEq

/-- Loop of `_wrap_download`: outer attempt counter `k`, remaining attempts
`fuel`, bytes counter `written` (never reset between attempts, exactly as in
the code), current on-disk state of `dest` in `file`.
Each outer attempt makes one network call via `get_with_retries(retries=1)`
(the `.attempt k` event).  A request-level failure makes that inner call
sleep `0.6 * 1` before re-raising, after which the job loop sleeps
`0.6 * k`; a mid-stream failure is raised past `get_with_retries`, so only
the job loop's `0.6 * k` sleep happens.  A mid-stream failure leaves the
destination file truncated on disk. -/
def wrapDownloadGo (oracle : Nat → AttemptResult) :
    Nat → Nat → Nat → Option FileData → Option (List Char) → JobRun
  | _, 0, written, file, lastErr =>
    { ok := false, written := written, err := some (lastErr.getD "None".data),
      file := file, trace := [] }
  | k, fuel + 1, written, file, _ =>
    match oracle k with
    | .success n =>
      { ok := true, written := written + n, err := none,
        file := some (.complete n), trace := [.attempt k] }
    | .midFail m p =>
      let r := wrapDownloadGo oracle (k + 1) fuel (written + p)
        (some (.truncated p)) (some m)
      { r with trace := .attempt k :: .sleep ((3 : ℚ) / 5 * k) :: r.trace }
    | .netFail m =>
      let r := wrapDownloadGo oracle (k + 1) fuel written file (some m)
      { r with trace := .attempt k :: .sleep ((3 : ℚ) / 5)
          :: .sleep ((3 : ℚ) / 5 * k) :: r.trace }

/-- Embedding of one `_wrap_download(j)` call with `max_retries` attempts. -/
def wrap_download (oracle : Nat → AttemptResult) (max_retries : Nat) : JobRun :=
  wrapDownloadGo oracle 1 max_retries 0 none none

structure JobResult where
  idx : Nat
  dest : List Char
  ok : Bool
  written : Nat
  err : Option (List Char)
deriving DecidableEq

structure DownloadRun where
  jobs : List ImageJob
  results : List JobResult
  returned : Option (List JobResult)
deriving DecidableEq

/-- Embedding of `download_images_threaded(image_urls, out_dir, …)`.
`oracle j k` is the outcome of attempt `k` of the job with sequence index
`j`; each job's outcome depends only on its own oracle (the jobs are
independent).  Python collects `results` in `as_completed` (completion)
order; the embedding lists them in job order, which the counting and
per-job claims below do not depend on.  `dest` is the filename within
`out_dir`.  The Python function body ends without a `return` statement, so
the call returns `None`: `returned := none`. -/
def download_images_threaded (urls : List (List Char)) (max_retries : Nat)
    (oracle : Nat → Nat → AttemptResult) : DownloadRun :=
  let jobs := mkJobs urls
  let results := jobs.map (fun j =>
    let r := wrap_download (oracle j.idx) max_retries
    { idx := j.idx, dest := j.filename, ok := r.ok, written := r.written,
      err := r.err : JobResult })
  { jobs := jobs, results := results, returned := none }

/-- Observer: total sleep seconds between consecutive attempt events
(sleeps before the first and after the last attempt are not "between"). -/
def wbGo : List Ev → Option ℚ → List ℚ
  | [], _ => []
  | .attempt _ :: rest, none => wbGo rest (some 0)
  | .attempt _ :: rest, some q => q :: wbGo rest (some 0)
  | .sleep _ :: rest, none => wbGo rest none
  | .sleep s :: rest, some q => wbGo rest (some (q + s))

def waitsBetween (t : List Ev) : List ℚ := wbGo t none

def countAttempts (t : List Ev) : Nat :=
  t.countP (fun e => match e with | .attempt _ => true | _ => false)

/-! ## Assembly (src/main.py, `images_to_pdf`) -/

/-- On-disk contents of the chapter image directory after the download
phase: each job leaves its destination file in the state of the last
attempt that opened it (`none` when every failure was request-level, so the
file was never created). -/
def jobFiles (urls : List (List Char)) (max_retries : Nat)
    (oracle : Nat → Nat → AttemptResult) : List (List Char × FileData) :=
  (mkJobs urls).filterMap (fun j =>
    ((wrap_download (oracle j.idx) max_retries).file).map (fun fd => (j.filename, fd)))

/-- Strict lexicographic comparison of filenames (Python `str <`). -/
def lexLtB : List Char → List Char → Bool
  | [], [] => false
  | [], _ :: _ => true
  | _ :: _, [] => false
  | a :: as, b :: bs => if a < b then true else if a = b then lexLtB as bs else false

def insertLex (x : List Char) : List (List Char) → List (List Char)
  | [] => [x]
  | y :: ys => if lexLtB y x then y :: insertLex x ys else x :: y :: ys

/-- `sorted(…)` over filenames (stable insertion sort; Python's `sorted`
orders `str` lexicographically). -/
def sortedFilenames : List (List Char) → List (List Char)
  | [] => []
  | x :: xs => insertLex x (sortedFilenames xs)

/-- `f.lower().endswith((".jpg", ".jpeg", ".png", ".webp"))`. -/
def hasImageExt (f : List Char) : Bool :=
  List.isSuffixOf ".jpg".data (f.map Char.toLower) ||
  List.isSuffixOf ".jpeg".data (f.map Char.toLower) ||
  List.isSuffixOf ".png".data (f.map Char.toLower) ||
  List.isSuffixOf ".webp".data (f.map Char.toLower)

/-- The page-source selection of `images_to_pdf`: list the directory's
files with supported extensions sorted by name; keep `.jpg/.jpeg/.png`
files as they are (no decode check); normalize anything else (i.e. `.webp`)
to JPEG in the `_converted` scratch directory when Pillow can decode it
(`decodable`), silently skipping it otherwise.  Each resulting file becomes
one page of the output document (`img2pdf.convert`). -/
def images_to_pdf_pages (dir : List (List Char × FileData))
    (decodable : List Char → Bool) : List (List Char) :=
  let src_files := sortedFilenames ((dir.map Prod.fst).filter hasImageExt)
  src_files.filterMap (fun p =>
    let ext := (splitextExt p).map Char.toLower
    if ext = ".jpg".data ∨ ext = ".jpeg".data ∨ ext = ".png".data then some p
    else if decodable p then
      some (p.take (p.length - ext.length) ++ ".jpg".data)
    else none)

/-- `images_to_pdf` returns `False` (no document) exactly when no files
survive selection/normalization. -/
def images_to_pdf_ok (dir : List (List Char × FileData))
    (decodable : List Char → Bool) : Bool :=
  !(images_to_pdf_pages dir decodable).isEmpty

/-! ## Orchestrator (src/main.py, the chapter loop of `run_bulk` and
`run_single`) -/

inductive ChapterStatus where
  | skipped
  | noImages
  | assembled
  | assemblyFailed
deriving DecidableEq

structure ChapterResult where
  status : ChapterStatus
  netCalls : Nat
  wrotePdf : Bool
deriving DecidableEq

/-- One iteration of the chapter loop of `run_bulk`.  `pdfExists` is
`os.path.exists(pdf_path)`; `pageFetchCalls` abstracts the GET attempts
`extract_chapter_images` makes for the chapter page, `pageImages` its
extraction result (empty also covers a failed page fetch).  The download
phase makes one HEAD probe per job plus the GET attempts of each job;
`images_to_pdf` then writes the document iff any page survives. -/
def run_bulk_chapter (pdfExists force : Bool) (pageFetchCalls : Nat)
    (pageImages : List (List Char)) (max_retries : Nat)
    (oracle : Nat → Nat → AttemptResult) (decodable : List Char → Bool) :
    ChapterResult :=
  if pdfExists && !force then
    { status := .skipped, netCalls := 0, wrotePdf := false }
  else if pageImages.isEmpty then
    { status := .noImages, netCalls := pageFetchCalls, wrotePdf := false }
  else
    let jobs := mkJobs pageImages
    let getCalls := jobs.foldl
      (fun acc j => acc + countAttempts (wrap_download (oracle j.idx) max_retries).trace) 0
    let ok := images_to_pdf_ok (jobFiles pageImages max_retries oracle) decodable
    { status := if ok then .assembled else .assemblyFailed,
      netCalls := pageFetchCalls + jobs.length + getCalls,
      wrotePdf := ok }

/-- `run_single` after label derivation: identical skip-if-exists guard and
pipeline for its one chapter. -/
def run_single_chapter (pdfExists force : Bool) (pageFetchCalls : Nat)
    (pageImages : List (List Char)) (max_retries : Nat)
    (oracle : Nat → Nat → AttemptResult) (decodable : List Char → Bool) :
    ChapterResult :=
  if pdfExists && !force then
    { status := .skipped, netCalls := 0, wrotePdf := false }
  else if pageImages.isEmpty then
    { status := .noImages, netCalls := pageFetchCalls, wrotePdf := false }
  else
    let jobs := mkJobs pageImages
    let getCalls := jobs.foldl
      (fun acc j => acc + countAttempts (wrap_download (oracle j.idx) max_retries).trace) 0
    let ok := images_to_pdf_ok (jobFiles pageImages max_retries oracle) decodable
    { status := if ok then .assembled else .assemblyFailed,
      netCalls := pageFetchCalls + jobs.length + getCalls,
      wrotePdf := ok }

/-! ## Name sanitization (src/main.py, `sanitize_name`) -/

/-- Membership in the regex class `[A-Za-z0-9 _-]`. -/
def isSafeChar (c : Char) : Bool :=
  decide (('A' ≤ c ∧ c ≤ 'Z') ∨ ('a' ≤ c ∧ c ≤ 'z') ∨ ('0' ≤ c ∧ c ≤ '9') ∨
    c = ' ' ∨ c = '_' ∨ c = '-')

/-- `SAFE_NAME_RE.sub("_", s)` with `SAFE_NAME_RE = re.compile(r"[^A-Za-z0-9 _-]+")`:
the `+` makes each maximal run of unsafe characters one single underscore.
`prevBad` records whether the previous character belonged to such a run. -/
def subSafeGo : Bool → List Char → List Char
  | _, [] => []
  | prevBad, c :: cs =>
    if isSafeChar c then c :: subSafeGo false cs
    else if prevBad then subSafeGo true cs
    else '_' :: subSafeGo true cs

/-- Python `str.strip()` whitespace (the ASCII part; after the substitution
only `' '` can occur anyway). -/
def isPySpace (c : Char) : Bool :=
  decide (c = ' ' ∨ c = '\t' ∨ c = '\n' ∨ c = '\r' ∨ c = '\x0b' ∨ c = '\x0c')

def pyStrip (l : List Char) : List Char :=
  ((l.dropWhile isPySpace).reverse.dropWhile isPySpace).reverse

/-- Embedding of `sanitize_name(s) = SAFE_NAME_RE.sub("_", s).strip() or "series"`. -/
def sanitize_name (s : List Char) : List Char :=
  let r := pyStrip (subSafeGo false s)
  if r.isEmpty then "series".data else r

/-- Spec-side reading of the amended C9: replace each maximal run of
characters outside `[A-Za-z0-9 _-]` with a single underscore (written
directly with `dropWhile`, independently of the accumulator loop above). -/
def collapseRuns : List Char → List Char
  | [] => []
  | c :: cs =>
    if isSafeChar c then c :: collapseRuns cs
    else '_' :: collapseRuns (cs.dropWhile (fun d => !isSafeChar d))
termination_by l => l.length
decreasing_by
  all_goals simp_wf
  have h : ∀ ds : List Char, (ds.dropWhile (fun d => !isSafeChar d)).length ≤ ds.length := by
    intro ds
    induction ds with
    | nil => simp [List.dropWhile]
    | cons d ds ih =>
      by_cases hd : isSafeChar d
      · simp [List.dropWhile, hd]
      · simp only [List.dropWhile, hd]
        simp only [Bool.not_false, if_true]
        simp only [List.length_cons]
        omega
  exact Nat.lt_succ_of_le (h _)

theorem effDpiX_pos (nd : Option (Option ℚ × Option ℚ)) : 0 < effDpiX nd := by
  rcases nd with _ | ⟨_ | dx, oy⟩ <;> simp [effDpiX]
  split_ifs with h1 h2 <;> norm_num
  exact h2

theorem effDpiY_pos (nd : Option (Option ℚ × Option ℚ)) : 0 < effDpiY nd := by
  rcases nd with _ | ⟨ox, _ | dy⟩ <;> simp [effDpiY]
  split_ifs with h1 h2 <;> norm_num
  exact h2

/-- **C2.** For every image with positive pixel width the layout rule yields a
page of width exactly 720 pt and height
`(h / DPI_y) * 72 * (720 / ((w / DPI_x) * 72))`, where each DPI axis defaults
to 96 when the tuple or the entry is absent, zero, or negative. -/
theorem c2_layout_fixed_width_geometry (w h : ℚ)
    (nd : Option (Option ℚ × Option ℚ)) (hw : 0 < w) :
    layout_fun_fixed_width w h nd =
      (720, h / effDpiY nd * 72 * (720 / (w / effDpiX nd * 72)),
       720, h / effDpiY nd * 72 * (720 / (w / effDpiX nd * 72))) ∧
    effDpiX none = 96 ∧ effDpiY none = 96 ∧
    (∀ oy, effDpiX (some (none, oy)) = 96) ∧
    (∀ ox, effDpiY (some (ox, none)) = 96) ∧
    (∀ q oy, q ≤ 0 → effDpiX (some (some q, oy)) = 96) ∧
    (∀ q ox, q ≤ 0 → effDpiY (some (ox, some q)) = 96) := by
  refine ⟨?_, rfl, rfl, fun _ => rfl, fun _ => rfl, ?_, ?_⟩
  · have hx : (0 : ℚ) < effDpiX nd := effDpiX_pos nd
    have hwpt : w / effDpiX nd * 72 ≠ 0 := by positivity
    simp only [layout_fun_fixed_width, if_pos hwpt]
  · intro q oy hq
    simp only [effDpiX]
    split_ifs with h1 h2 <;> [linarith; rfl; rfl]
  · intro q ox hq
    simp only [effDpiY]
    split_ifs with h1 h2 <;> [linarith; rfl; rfl]

/-- Witness for `c2_layout_fixed_width_geometry` at a concrete input:
a 1080×2400 px image with no DPI metadata. -/
theorem c2_layout_fixed_width_geometry_witness :
    (0 : ℚ) < 1080 ∧
    layout_fun_fixed_width 1080 2400 none =
      (720, (2400 : ℚ) / effDpiY none * 72 * (720 / ((1080 : ℚ) / effDpiX none * 72)),
       720, (2400 : ℚ) / effDpiY none * 72 * (720 / ((1080 : ℚ) / effDpiX none * 72))) := by
  refine ⟨by norm_num, ?_⟩
  exact (c2_layout_fixed_width_geometry 1080 2400 none (by norm_num)).1

/-- **C10.** The layout rule is total: every input gets page width 720 pt on
both width components, and a zero pixel width takes the `scale = 1.0`
fallback, so the height is the image's own physical height in points
(finite, since the effective DPI is never zero). -/
theorem c10_layout_total_zero_width_fallback :
    (∀ w h nd, (layout_fun_fixed_width w h nd).1 = 720 ∧
        (layout_fun_fixed_width w h nd).2.2.1 = 720) ∧
    (∀ h nd, layout_fun_fixed_width 0 h nd =
        (720, h / effDpiY nd * 72, 720, h / effDpiY nd * 72)) := by
  constructor
  · intro w h nd
    exact ⟨rfl, rfl⟩
  · intro h nd
    simp [layout_fun_fixed_width]

/-! ### Chapter enumeration: claim C6 -/

theorem enumFrom_map_range' {α : Type} (g : Nat → α) :
    ∀ (k n : Nat), List.enumFrom n ((List.range' n k).map g) =
      (List.range' n k).map (fun i => (i, g i)) := by
  intro k
  induction k with
  | zero => intro n; rfl
  | succ k ih =>
    intro n
    rw [List.range'_succ]
    simp only [List.map_cons, List.enumFrom_cons, ih (n + 1)]

theorem chapterEntries_eq (base : String) (N : Nat) :
    chapterEntries base N =
      (List.range' 1 N).map
        (fun i => (toString i, rstripSlash base ++ "/chapter-" ++ toString i)) := by
  unfold chapterEntries generate_chapter_urls
  rw [enumFrom_map_range']
  rw [List.map_map]
  rfl

/-- **C6.** For every base address and positive `N`, chapter enumeration
yields exactly `N` entries; the `k`-th entry (0-based `k < N`) has label
`toString (k+1)` and address `rstrip base ++ "/chapter-" ++ toString (k+1)`,
so labels run "1".."N" in increasing order.  The operation is a pure Lean
function of its arguments, hence deterministic. -/
theorem c6_chapter_enumeration (base : String) (N : Nat) (hN : 0 < N) :
    (chapterEntries base N).length = N ∧
    ∀ k, k < N → (chapterEntries base N)[k]? =
      some (toString (k + 1), rstripSlash base ++ "/chapter-" ++ toString (k + 1)) := by
  rw [chapterEntries_eq]
  constructor
  · rw [List.length_map, List.length_range']
  · intro k hk
    rw [List.getElem?_map, List.getElem?_range' 1 1 hk]
    simp [Nat.add_comm 1 k]

/-- Witness for `c6_chapter_enumeration`: three chapters of a concrete base
address with a trailing slash. -/
theorem c6_chapter_enumeration_witness :
    0 < 3 ∧
    ((chapterEntries "http://example.org/series/alpha/" 3).length = 3 ∧
     ∀ k, k < 3 → (chapterEntries "http://example.org/series/alpha/" 3)[k]? =
       some (toString (k + 1),
         rstripSlash "http://example.org/series/alpha/" ++ "/chapter-" ++ toString (k + 1))) :=
  ⟨by decide, c6_chapter_enumeration "http://example.org/series/alpha/" 3 (by decide)⟩

/-! ### Name sanitization: claim C9 -/

theorem dropWhileLenLe (p : Char → Bool) (l : List Char) :
    (l.dropWhile p).length ≤ l.length := by
  induction l with
  | nil => simp [List.dropWhile]
  | cons c cs ih =>
    by_cases hc : p c
    · simp only [List.dropWhile, hc, if_true, List.length_cons]
      omega
    · simp [List.dropWhile, hc]

theorem subSafeGo_true_eq (cs : List Char) :
    subSafeGo true cs = subSafeGo false (cs.dropWhile (fun d => !isSafeChar d)) := by
  induction cs with
  | nil => rfl
  | cons c cs ih =>
    by_cases hc : isSafeChar c
    · simp [subSafeGo, List.dropWhile, hc]
    · simp only [subSafeGo, hc, if_false, if_true, List.dropWhile, Bool.not_false]
      simpa [hc] using ih

theorem subSafeGo_eq_collapseRuns_aux :
    ∀ n (s : List Char), s.length ≤ n → subSafeGo false s = collapseRuns s := by
  intro n
  induction n with
  | zero =>
    intro s hs
    cases s with
    | nil => simp [subSafeGo, collapseRuns]
    | cons c cs => simp at hs
  | succ n ih =>
    intro s hs
    cases s with
    | nil => simp [subSafeGo, collapseRuns]
    | cons c cs =>
      by_cases hc : isSafeChar c
      · rw [collapseRuns]
        simp only [subSafeGo, hc, if_true]
        rw [ih cs (by simpa using Nat.le_of_succ_le_succ hs)]
      · rw [collapseRuns]
        simp only [subSafeGo, hc, if_true, if_false]
        simp only [Bool.false_eq_true, if_false]
        rw [subSafeGo_true_eq]
        rw [ih _ (le_trans (dropWhileLenLe _ cs) (by simpa using Nat.le_of_succ_le_succ hs))]

theorem subSafeGo_eq_collapseRuns (s : List Char) :
    subSafeGo false s = collapseRuns s :=
  subSafeGo_eq_collapseRuns_aux s.length s le_rfl

/-- **C9 counterexample.** The claim says every character outside
`[A-Za-z0-9 _-]` is replaced by one underscore, so `"%%"` would become
`"__"`; the regex `[^A-Za-z0-9 _-]+` collapses the whole run to a single
underscore instead. -/
theorem c9_counterexample :
    sanitize_name "%%".data = "_".data ∧ sanitize_name "%%".data ≠ "__".data := by
  decide

/-- **C9 amended.** `sanitize_name` replaces each *maximal run* of
characters outside `[A-Za-z0-9 _-]` with a single underscore
(`collapseRuns` is that rule written directly), then strips
leading/trailing whitespace, and defaults to `"series"` when the stripped
result is empty. -/
theorem c9_amended (s : List Char) :
    sanitize_name s =
      (if (pyStrip (collapseRuns s)).isEmpty then "series".data
       else pyStrip (collapseRuns s)) := by
  simp only [sanitize_name, subSafeGo_eq_collapseRuns]

/-! ### Job construction: claims C7 and C1 -/

theorem mkJobsGo_spec (urls : List (List Char)) :
    ∀ n, (mkJobsGo urls n).map ImageJob.url = urls.filter _is_valid_image_url ∧
      (mkJobsGo urls n).map ImageJob.idx =
        List.range' (n + 1) (urls.filter _is_valid_image_url).length ∧
      ((mkJobsGo urls n).all fun j => _is_valid_image_url j.url) = true := by
  induction urls with
  | nil => intro n; simp [mkJobsGo]
  | cons u us ih =>
    intro n
    by_cases hu : _is_valid_image_url u
    · simp only [mkJobsGo, hu, if_true, List.filter_cons, List.map_cons,
        List.length_cons, List.all_cons, Bool.true_and]
      refine ⟨by rw [(ih (n + 1)).1], ?_, (ih (n + 1)).2.2⟩
      rw [List.range'_succ, (ih (n + 1)).2.1]
    · simp only [mkJobsGo, hu, if_false, List.filter_cons, Bool.false_eq_true]
      simpa [hu] using ih n

/-- **C7 counterexample.** An extracted address with an unmatched `[` in
its netloc — which passes `extract_chapter_images`' `http(s)://` prefix
check, so it reaches the job loop — makes `urlparse` raise
`ValueError("Invalid IPv6 URL")` inside `_is_valid_image_url`: the entry
is neither dropped silently nor an accepted job, the whole download
crashes.  So "such entries are dropped silently (not an error)" is false
of the code (an ordinary address, for contrast, parses without error). -/
theorem c7_counterexample :
    urlsplitError "http://[a/x.svg".data = some "Invalid IPv6 URL".data ∧
    mkJobsE ["http://[a/x.svg".data] = .error "Invalid IPv6 URL".data ∧
    urlsplitError "http://[foo/bar.jpg".data = some "Invalid IPv6 URL".data ∧
    mkJobsE ["http://[foo/bar.jpg".data] = .error "Invalid IPv6 URL".data ∧
    urlsplitError "http://a/ok.jpg".data = none :=
  ⟨by decide, by rfl, by decide, by rfl, by decide⟩

theorem mkJobsGoE_ok (urls : List (List Char))
    (h : ∀ u ∈ urls, urlsplitError u = none) :
    ∀ n, mkJobsGoE urls n = .ok (mkJobsGo urls n) := by
  induction urls with
  | nil => intro n; rfl
  | cons u us ih =>
    intro n
    have hu : urlsplitError u = none := h u (by simp)
    have hus : ∀ v ∈ us, urlsplitError v = none := fun v hv => h v (by simp [hv])
    simp only [mkJobsGoE, hu, mkJobsGo]
    by_cases hv : _is_valid_image_url u
    · simp [hv, ih hus (n + 1)]
    · simp [hv, ih hus n]

/-- **C7 amended.** For every extracted address list whose entries all
parse without `ValueError` (in particular any list of bracket-free ASCII
addresses), the job loop completes and the job list never contains an
address that is not absolute http/https nor one whose path ends in
`.svg`/`.ico`; those entries are dropped silently, and sequence indices
are assigned only to the surviving entries in their original order.  An
address whose netloc has an unmatched bracket, an invalid bracketed host,
or non-ASCII characters rejected by the NFKC check instead makes
`urlparse` raise `ValueError`, which propagates uncaught out of the job
loop rather than the entry being dropped. -/
theorem c7_amended_job_list_filtered (urls : List (List Char))
    (h : ∀ u ∈ urls, urlsplitError u = none) :
    mkJobsE urls = .ok (mkJobs urls) ∧
    ((mkJobs urls).all fun j =>
        (((urlparse j.url).scheme.map Char.toLower == "http".data) ||
         ((urlparse j.url).scheme.map Char.toLower == "https".data)) &&
        !(List.isSuffixOf ".svg".data ((urlparse j.url).path.map Char.toLower) ||
          List.isSuffixOf ".ico".data ((urlparse j.url).path.map Char.toLower))) = true ∧
    (mkJobs urls).map ImageJob.url = urls.filter _is_valid_image_url ∧
    (mkJobs urls).map ImageJob.idx =
      List.range' 1 (urls.filter _is_valid_image_url).length :=
  ⟨mkJobsGoE_ok urls h 0, (mkJobsGo_spec urls 0).2.2, (mkJobsGo_spec urls 0).1,
    (mkJobsGo_spec urls 0).2.1⟩

/-- Witness for `c7_amended_job_list_filtered`: a concrete address list —
one relative address and one `.svg` get dropped, the rest are numbered in
order — on which every parse completes. -/
theorem c7_amended_job_list_filtered_witness :
    (∀ u ∈ ["http://a/2.png".data, "/icon.png".data, "https://b/x.svg".data,
       "http://c/y.webp".data, "https://d/z".data], urlsplitError u = none) ∧
    (mkJobsE ["http://a/2.png".data, "/icon.png".data, "https://b/x.svg".data,
       "http://c/y.webp".data, "https://d/z".data] =
      .ok (mkJobs ["http://a/2.png".data, "/icon.png".data, "https://b/x.svg".data,
        "http://c/y.webp".data, "https://d/z".data]) ∧
     ((mkJobs ["http://a/2.png".data, "/icon.png".data, "https://b/x.svg".data,
        "http://c/y.webp".data, "https://d/z".data]).all fun j =>
        (((urlparse j.url).scheme.map Char.toLower == "http".data) ||
         ((urlparse j.url).scheme.map Char.toLower == "https".data)) &&
        !(List.isSuffixOf ".svg".data ((urlparse j.url).path.map Char.toLower) ||
          List.isSuffixOf ".ico".data ((urlparse j.url).path.map Char.toLower))) = true ∧
     (mkJobs ["http://a/2.png".data, "/icon.png".data, "https://b/x.svg".data,
        "http://c/y.webp".data, "https://d/z".data]).map ImageJob.url =
       (["http://a/2.png".data, "/icon.png".data, "https://b/x.svg".data,
         "http://c/y.webp".data, "https://d/z".data].filter _is_valid_image_url) ∧
     (mkJobs ["http://a/2.png".data, "/icon.png".data, "https://b/x.svg".data,
        "http://c/y.webp".data, "https://d/z".data]).map ImageJob.idx =
       List.range' 1 ((["http://a/2.png".data, "/icon.png".data, "https://b/x.svg".data,
         "http://c/y.webp".data, "https://d/z".data].filter _is_valid_image_url).length)) :=
  ⟨by decide,
   c7_amended_job_list_filtered ["http://a/2.png".data, "/icon.png".data,
     "https://b/x.svg".data, "http://c/y.webp".data, "https://d/z".data] (by decide)⟩

theorem mkJobs_idx_eq (urls : List (List Char)) :
    (mkJobs urls).map ImageJob.idx =
      List.range' 1 (urls.filter _is_valid_image_url).length := by
  have h := (mkJobsGo_spec urls 0).2.1
  simpa [mkJobs] using h

theorem digChar_lt (a b : Nat) (ha : a < 10) (hb : b < 10) (hab : a < b) :
    digChar a < digChar b := by
  interval_cases a <;> interval_cases b <;> decide

theorem lexAppend {r : Char → Char → Prop} :
    ∀ {as bs : List Char}, List.Lex r as bs → as.length = bs.length →
      ∀ (cs ds : List Char), List.Lex r (as ++ cs) (bs ++ ds) := by
  intro as bs h
  induction h with
  | nil => intro hlen; simp at hlen
  | @rel a l1 b l2 hr => intro _ cs ds; exact List.Lex.rel hr
  | @cons a l1 l2 h ih =>
    intro hlen cs ds
    exact List.Lex.cons (ih (by simpa using hlen) cs ds)

theorem fmt03_length (n : Nat) (h : n < 1000) : (fmt03 n).length = 3 := by
  rw [fmt03, if_pos h]
  rfl

theorem fmt03_lt (i j : Nat) (hij : i < j) (hj : j ≤ 999) :
    List.Lex (· < ·) (fmt03 i) (fmt03 j) := by
  have hi : i < 1000 := by omega
  have hj' : j < 1000 := by omega
  rw [fmt03, if_pos hi, fmt03, if_pos hj']
  rcases Nat.lt_trichotomy (i / 100) (j / 100) with h | h | h
  · exact List.Lex.rel (digChar_lt _ _ (by omega) (by omega) h)
  · rw [h]
    rcases Nat.lt_trichotomy (i / 10 % 10) (j / 10 % 10) with h2 | h2 | h2
    · exact List.Lex.cons (List.Lex.rel (digChar_lt _ _ (by omega) (by omega) h2))
    · rw [h2]
      have h3 : i % 10 < j % 10 := by omega
      exact List.Lex.cons (List.Lex.cons
        (List.Lex.rel (digChar_lt _ _ (by omega) (by omega) h3)))
    · exact absurd h2 (by omega)
  · exact absurd h (by omega)

theorem mkJobs_idx_le (urls : List (List Char)) (j : ImageJob)
    (hj : j ∈ mkJobs urls) : j.idx ≤ (urls.filter _is_valid_image_url).length := by
  have hmem : j.idx ∈ (mkJobs urls).map ImageJob.idx := List.mem_map_of_mem _ hj
  rw [mkJobs_idx_eq] at hmem
  rw [List.mem_range'] at hmem
  obtain ⟨i, hi, hEq⟩ := hmem
  omega

/-- **C1.** With at most 999 surviving addresses, the derived destination
filenames (`{idx:03d}` + extension) are pairwise strictly increasing in
lexicographic character order — so sorting them lexicographically (as the
assembler does) reproduces exactly the original filtered order. -/
theorem c1_filenames_sorted (urls : List (List Char))
    (h : (urls.filter _is_valid_image_url).length ≤ 999) :
    List.Pairwise (fun a b => List.Lex (· < ·) a b)
      ((mkJobs urls).map ImageJob.filename) := by
  rw [List.pairwise_map]
  have hidx : List.Pairwise (fun a b : ImageJob => a.idx < b.idx) (mkJobs urls) := by
    have hp : List.Pairwise (· < ·) ((mkJobs urls).map ImageJob.idx) := by
      rw [mkJobs_idx_eq]
      simpa using List.pairwise_lt_range' 1 (urls.filter _is_valid_image_url).length
    rwa [List.pairwise_map] at hp
  refine List.Pairwise.imp_of_mem ?_ hidx
  intro a b ha hb hab
  have hA : a.idx ≤ 999 := le_trans (mkJobs_idx_le urls a ha) h
  have hB : b.idx ≤ 999 := le_trans (mkJobs_idx_le urls b hb) h
  unfold ImageJob.filename
  exact lexAppend (fmt03_lt a.idx b.idx hab hB)
    (by rw [fmt03_length _ (by omega), fmt03_length _ (by omega)]) _ _

/-- Witness for `c1_filenames_sorted`: a concrete address list with one
relative address and one `.svg` that get dropped. -/
theorem c1_filenames_sorted_witness :
    ((["http://a/2.png".data, "/icon.png".data, "https://b/x.svg".data,
       "http://c/y.webp".data, "https://d/z".data].filter _is_valid_image_url).length ≤ 999) ∧
    List.Pairwise (fun a b => List.Lex (· < ·) a b)
      ((mkJobs ["http://a/2.png".data, "/icon.png".data, "https://b/x.svg".data,
        "http://c/y.webp".data, "https://d/z".data]).map ImageJob.filename) :=
  ⟨by decide,
   c1_filenames_sorted ["http://a/2.png".data, "/icon.png".data, "https://b/x.svg".data,
     "http://c/y.webp".data, "https://d/z".data] (by decide)⟩


/-! ### Retry backoff: claim C3 -/

theorem wbGo_nil (acc : Option ℚ) : wbGo [] acc = [] := rfl

theorem wbGo_attempt_none (k : Nat) (rest : List Ev) :
    wbGo (.attempt k :: rest) none = wbGo rest (some 0) := rfl

theorem wbGo_attempt_some (k : Nat) (rest : List Ev) (q : ℚ) :
    wbGo (.attempt k :: rest) (some q) = q :: wbGo rest (some 0) := rfl

theorem wbGo_sleep_some (s : ℚ) (rest : List Ev) (q : ℚ) :
    wbGo (.sleep s :: rest) (some q) = wbGo rest (some (q + s)) := rfl

/-- Closed form of a job whose every attempt fails at the request level:
each attempt contributes its attempt event, the 0.6 s sleep of the inner
single-attempt `get_with_retries`, and the job loop's `0.6 * attempt`
sleep; the recorded error is the last attempt's message. -/
theorem wrapDownloadGo_netfail (msgs : Nat → List Char) :
    ∀ (fuel k written : Nat) (file : Option FileData) (lastErr : Option (List Char)),
      1 ≤ fuel →
      wrapDownloadGo (fun i => .netFail (msgs i)) k fuel written file lastErr =
        { ok := false, written := written, err := some (msgs (k + fuel - 1)), file := file,
          trace := (List.range' k fuel).flatMap
            (fun i => [.attempt i, .sleep ((3:ℚ)/5), .sleep ((3:ℚ)/5 * (i : ℚ))]) } := by
  intro fuel
  induction fuel with
  | zero => intro k written file lastErr h; omega
  | succ fuel ih =>
    intro k written file lastErr _
    cases fuel with
    | zero =>
      simp [wrapDownloadGo, List.range'_one]
    | succ f =>
      rw [show wrapDownloadGo (fun i => .netFail (msgs i)) k (f + 1 + 1) written file lastErr =
          (let r := wrapDownloadGo (fun i => .netFail (msgs i)) (k + 1) (f + 1) written file
            (some (msgs k))
          { r with trace := .attempt k :: .sleep ((3 : ℚ) / 5)
              :: .sleep ((3 : ℚ) / 5 * (k : ℚ)) :: r.trace }) from rfl]
      rw [ih (k + 1) written file (some (msgs k)) (by omega)]
      rw [show List.range' k (f + 1 + 1) = k :: List.range' (k + 1) (f + 1) from
        List.range'_succ k (f + 1) 1]
      rw [List.flatMap_cons]
      have hidx : k + 1 + (f + 1) - 1 = k + (f + 1 + 1) - 1 := by omega
      simp [hidx]

theorem wbGo_blocks :
    ∀ (m k : Nat) (q : ℚ),
      wbGo ((List.range' k (m + 1)).flatMap
        (fun i => [.attempt i, .sleep ((3:ℚ)/5), .sleep ((3:ℚ)/5 * (i : ℚ))])) (some q) =
      q :: (List.range' k m).map (fun i : Nat => (3:ℚ)/5 + (3:ℚ)/5 * (i : ℚ)) := by
  intro m
  induction m with
  | zero =>
    intro k q
    simp [List.range'_one, wbGo]
  | succ m ih =>
    intro k q
    rw [show List.range' k (m + 1 + 1) = k :: List.range' (k + 1) (m + 1) from
      List.range'_succ k (m + 1) 1]
    rw [List.flatMap_cons]
    simp only [List.cons_append, List.nil_append]
    rw [wbGo_attempt_some, wbGo_sleep_some, wbGo_sleep_some]
    rw [ih (k + 1)]
    rw [show List.range' k (m + 1) = k :: List.range' (k + 1) m from List.range'_succ k m 1]
    rw [List.map_cons]
    norm_num

/-- The sleeps between consecutive attempts of an all-request-level-failing
job: `0.6 + 0.6 * i` seconds between attempt `i` and attempt `i + 1`. -/
theorem waitsBetween_netfail (msgs : Nat → List Char) (mr : Nat) (h : 1 ≤ mr) :
    waitsBetween (wrap_download (fun i => .netFail (msgs i)) mr).trace =
      (List.range' 1 (mr - 1)).map (fun i : Nat => (3:ℚ)/5 + (3:ℚ)/5 * (i : ℚ)) := by
  obtain ⟨m, rfl⟩ : ∃ m, mr = m + 1 := ⟨mr - 1, by omega⟩
  rw [wrap_download, wrapDownloadGo_netfail msgs (m + 1) 1 0 none none (by omega)]
  cases m with
  | zero =>
    simp [waitsBetween, wbGo, List.range'_one]
  | succ m' =>
    unfold waitsBetween
    dsimp only
    rw [show List.range' 1 (m' + 1 + 1) = 1 :: List.range' 2 (m' + 1) from
      List.range'_succ 1 (m' + 1) 1]
    rw [List.flatMap_cons]
    simp only [List.cons_append, List.nil_append]
    rw [wbGo_attempt_none, wbGo_sleep_some, wbGo_sleep_some]
    rw [wbGo_blocks m' 2]
    rw [show m' + 1 + 1 - 1 = m' + 1 from by omega]
    rw [show List.range' 1 (m' + 1) = 1 :: List.range' 2 m' from List.range'_succ 1 m' 1]
    rw [List.map_cons]
    norm_num

theorem countAttempts_wrapGo_le (oracle : Nat → AttemptResult) :
    ∀ (fuel k written : Nat) (file : Option FileData) (lastErr : Option (List Char)),
      countAttempts (wrapDownloadGo oracle k fuel written file lastErr).trace ≤ fuel := by
  intro fuel
  induction fuel with
  | zero => intro k written file lastErr; simp [wrapDownloadGo, countAttempts]
  | succ fuel ih =>
    intro k written file lastErr
    rw [wrapDownloadGo]
    cases oracle k with
    | success n => simp [countAttempts]
    | midFail m p =>
      simp only [countAttempts, List.countP_cons]
      have hle := ih (k + 1) (written + p) (some (.truncated p)) (some m)
      simp only [countAttempts] at hle
      simp
      omega
    | netFail m =>
      simp only [countAttempts, List.countP_cons]
      have hle := ih (k + 1) written file (some m)
      simp only [countAttempts] at hle
      simp
      omega

theorem countAttempts_blocks :
    ∀ (m k : Nat),
      countAttempts ((List.range' k m).flatMap
        (fun i => [.attempt i, .sleep ((3:ℚ)/5), .sleep ((3:ℚ)/5 * (i : ℚ))])) = m := by
  intro m
  induction m with
  | zero => intro k; rfl
  | succ m ih =>
    intro k
    rw [List.range'_succ, List.flatMap_cons]
    simp only [countAttempts, List.countP_append]
    have hc := ih (k + 1)
    simp only [countAttempts] at hc
    rw [hc]
    simp [List.countP_cons]
    omega

/-- **C3 counterexample.** With `maxRetries = 2` and both attempts failing at
the request level (timeout / connection error / non-2xx — the failures the
claim describes), the job sleeps 6/5 s between its two attempts, while the
HTTP client adapter alone sleeps 3/5 s between its attempts; so the job's
backoff is not the claimed `0.6 × attemptNumber` (= 3/5 s before attempt 2),
and not "the same linear backoff" as the adapter. -/
theorem c3_counterexample :
    waitsBetween (wrap_download (fun _ => .netFail "timed out".data) 2).trace =
      [(6 : ℚ)/5] ∧
    waitsBetween (get_with_retries (α := Nat) (fun _ => .error "timed out".data) 2).2 =
      [(3 : ℚ)/5] ∧
    (6 : ℚ)/5 ≠ (3 : ℚ)/5 * 1 := by
  refine ⟨?_, ?_, by norm_num⟩
  · have h := waitsBetween_netfail (fun _ => "timed out".data) 2 (by norm_num)
    norm_num [List.range'_one] at h
    exact h
  · norm_num [get_with_retries, getWithRetriesGo, waitsBetween, wbGo]

/-- **C3 amended.** Every job makes at most `maxRetries` network attempts,
independently of the others.  A job whose attempts all fail at the request
level makes exactly `maxRetries` attempts and waits `0.6 × i + 0.6` seconds
between attempt `i` and attempt `i + 1` — the job loop's `0.6 × i` backoff
plus the extra 0.6 s sleep of the failed single-attempt HTTP call; the
exhausted job is recorded as failed with the last attempt's error message,
and the sibling jobs are unaffected: the result list still carries one
outcome per job. -/
theorem c3_amended_retry_backoff (mr : Nat) (hmr : 1 ≤ mr) (msgs : Nat → List Char) :
    (∀ oracle : Nat → AttemptResult, countAttempts (wrap_download oracle mr).trace ≤ mr) ∧
    countAttempts (wrap_download (fun i => .netFail (msgs i)) mr).trace = mr ∧
    (wrap_download (fun i => .netFail (msgs i)) mr).ok = false ∧
    (wrap_download (fun i => .netFail (msgs i)) mr).err = some (msgs mr) ∧
    waitsBetween (wrap_download (fun i => .netFail (msgs i)) mr).trace =
      (List.range' 1 (mr - 1)).map (fun i : Nat => (3:ℚ)/5 + (3:ℚ)/5 * (i : ℚ)) ∧
    (∀ (urls : List (List Char)) (oracle : Nat → Nat → AttemptResult),
      (download_images_threaded urls mr oracle).results.map JobResult.idx =
        (mkJobs urls).map ImageJob.idx) := by
  refine ⟨fun oracle => countAttempts_wrapGo_le oracle mr 1 0 none none, ?_, ?_, ?_, ?_, ?_⟩
  · rw [wrap_download, wrapDownloadGo_netfail msgs mr 1 0 none none hmr]
    exact countAttempts_blocks mr 1
  · rw [wrap_download, wrapDownloadGo_netfail msgs mr 1 0 none none hmr]
  · rw [wrap_download, wrapDownloadGo_netfail msgs mr 1 0 none none hmr]
    rw [show 1 + mr - 1 = mr from by omega]
  · exact waitsBetween_netfail msgs mr hmr
  · intro urls oracle
    simp only [download_images_threaded, List.map_map]
    rfl

/-- Witness for `c3_amended_retry_backoff` at `maxRetries = 2` with a
constant error message. -/
theorem c3_amended_retry_backoff_witness :
    1 ≤ 2 ∧
    ((∀ oracle : Nat → AttemptResult, countAttempts (wrap_download oracle 2).trace ≤ 2) ∧
     countAttempts (wrap_download (fun _ => .netFail "boom".data) 2).trace = 2 ∧
     (wrap_download (fun _ => .netFail "boom".data) 2).ok = false ∧
     (wrap_download (fun _ => .netFail "boom".data) 2).err = some "boom".data ∧
     waitsBetween (wrap_download (fun _ => .netFail "boom".data) 2).trace =
       (List.range' 1 (2 - 1)).map (fun i : Nat => (3:ℚ)/5 + (3:ℚ)/5 * (i : ℚ)) ∧
     (∀ (urls : List (List Char)) (oracle : Nat → Nat → AttemptResult),
       (download_images_threaded urls 2 oracle).results.map JobResult.idx =
         (mkJobs urls).map ImageJob.idx)) :=
  ⟨by decide, c3_amended_retry_backoff 2 (by decide) (fun _ => "boom".data)⟩

/-! ### Assembly from failed jobs: claim C4 -/

/-- **C4 evaluation (code bug).** One job whose three attempts all fail
mid-stream (the connection drops after 100 bytes of the body were already
streamed into `dest`): the job is recorded as failed with a non-empty
error, yet each failing attempt truncates-and-rewrites the destination
file, so a truncated `001.jpg` stays on disk; `images_to_pdf` then lists
exactly that file as a page source — the document is not built from
successful jobs' files only. -/
theorem c4_truncated_file_becomes_page :
    (wrap_download (fun _ => .midFail "connection reset by peer".data 100) 3).ok = false ∧
    (wrap_download (fun _ => .midFail "connection reset by peer".data 100) 3).err =
      some "connection reset by peer".data ∧
    jobFiles ["http://host/img/page1.jpg".data] 3
        (fun _ _ => .midFail "connection reset by peer".data 100) =
      [("001.jpg".data, .truncated 100)] ∧
    images_to_pdf_pages
        (jobFiles ["http://host/img/page1.jpg".data] 3
          (fun _ _ => .midFail "connection reset by peer".data 100))
        (fun _ => false) = ["001.jpg".data] :=
  ⟨by decide, by decide, by decide, by decide⟩

/-! ### Returning outcomes: claim C5 -/

/-- **C5 counterexample.** `download_images_threaded` ends without a
`return` statement, so its caller receives `None` — not the list of job
outcomes — although a non-empty internal results list was built. -/
theorem c5_counterexample :
    (download_images_threaded ["http://a/1.jpg".data] 3 (fun _ _ => .success 10)).returned
      = none ∧
    (download_images_threaded ["http://a/1.jpg".data] 3 (fun _ _ => .success 10)).results
      ≠ [] := by
  constructor
  · rfl
  · decide

/-- **C5 amended.** The download operation computes one outcome per
surviving address (succeeded and failed alike) in an internal results list
whose indices are exactly the job indices, but it returns `None` to its
caller; the outcomes are only reported through the console, and the
orchestrator proceeds with whatever files exist on disk. -/
theorem c5_amended_outcomes_internal (urls : List (List Char)) (mr : Nat)
    (oracle : Nat → Nat → AttemptResult) :
    (download_images_threaded urls mr oracle).returned = none ∧
    (download_images_threaded urls mr oracle).results.length = (mkJobs urls).length ∧
    (download_images_threaded urls mr oracle).results.map JobResult.idx =
      (mkJobs urls).map ImageJob.idx ∧
    (download_images_threaded urls mr oracle).jobs = mkJobs urls := by
  refine ⟨rfl, ?_, ?_, rfl⟩
  · simp [download_images_threaded]
  · simp only [download_images_threaded, List.map_map]
    rfl

/-! ### Skip-if-exists idempotence: claim C8 -/

/-- **C8.** When the chapter's output document already exists and
`force = false`, both the bulk chapter loop and single-chapter mode skip
the chapter: zero network calls for it, status "skipped", and nothing
written — independently of what the page parser, the download oracle or
the image decoder would have produced. -/
theorem c8_skip_existing (pageFetchCalls : Nat) (pageImages : List (List Char))
    (mr : Nat) (oracle : Nat → Nat → AttemptResult) (decodable : List Char → Bool) :
    run_bulk_chapter true false pageFetchCalls pageImages mr oracle decodable =
      { status := .skipped, netCalls := 0, wrotePdf := false } ∧
    run_single_chapter true false pageFetchCalls pageImages mr oracle decodable =
      { status := .skipped, netCalls := 0, wrotePdf := false } :=
  ⟨rfl, rfl⟩
